import Mathlib

/-!
Verification of the spatial invoice chunking engine and the table/position
normalizer of the pdf-llm-pipeline repository.  The Python sources
(`pdf_pipeline_modular/chunking/spatial_invoice_chunker.py` and
`pdf_pipeline_modular/normalizer/normalizer.py`) are shallowly embedded:
floats become rationals, dictionaries with defaulted access become
structures with `Option` fields, and Python's `re` patterns become terms of
a small regular-expression language matched by Brzozowski derivatives.
-/

namespace Pdf

/-! ### Python string primitives, modelled on explicit character lists -/

/-- Python `str.lower` (ASCII case folding, as used by the sources). -/
def lowerStr (s : String) : String := ⟨s.data.map Char.toLower⟩

/-- Does the first list occur as a leading segment of the second? -/
def listStartsWith : List Char → List Char → Bool
  | [], _ => true
  | _ :: _, [] => false
  | a :: as, b :: bs => a == b && listStartsWith as bs

/-- Does the first list occur as a contiguous segment of the second? -/
def listHasSub : List Char → List Char → Bool
  | n, [] => listStartsWith n []
  | n, c :: cs => listStartsWith n (c :: cs) || listHasSub n cs

/-- Python `needle in hay` on strings (substring containment). -/
def strContains (hay needle : String) : Bool := listHasSub needle.data hay.data

/-- Python `str.strip`: drop leading and trailing whitespace. -/
def stripStr (s : String) : String :=
  ⟨((s.data.dropWhile Char.isWhitespace).reverse.dropWhile Char.isWhitespace).reverse⟩

/-- Split a character list at every character satisfying `p`
(Python `str.split(sep)` semantics: empty pieces are kept). -/
def splitOnP (p : Char → Bool) : List Char → List (List Char)
  | [] => [[]]
  | x :: xs =>
    let r := splitOnP p xs
    if p x then [] :: r
    else
      match r with
      | [] => [[x]]
      | h :: t => (x :: h) :: t

/-- Python `s.split('\n')`. -/
def splitLinesStr (s : String) : List String :=
  (splitOnP (fun c => c == '\n') s.data).map (fun l => ⟨l⟩)

/-- Python `s.split()`: split on whitespace runs, dropping empty pieces. -/
def splitWsStr (s : String) : List String :=
  ((splitOnP Char.isWhitespace s.data).filter (fun l => !l.isEmpty)).map (fun l => ⟨l⟩)

/-- Python `s.isdigit()` (ASCII): nonempty and all digits. -/
def pyIsDigit (s : String) : Bool := !s.data.isEmpty && s.data.all Char.isDigit

/-- Python `s.isupper()` (ASCII): at least one cased character and no
lowercase cased character. -/
def pyIsUpper (s : String) : Bool :=
  s.data.any Char.isAlpha && s.data.all (fun c => !c.isLower)

/-- Python `s.replace(c, '')` for a single-character pattern. -/
def removeCh (c : Char) (s : String) : String := ⟨s.data.filter (fun x => x != c)⟩

/-- Python `sep.join(parts)`. -/
def joinStr (sep : String) (parts : List String) : String :=
  ⟨List.intercalate sep.data (parts.map String.data)⟩

/-- Python `c * n` for a single character (e.g. `"=" * 50`). -/
def replicateStr (n : Nat) (c : Char) : String := ⟨List.replicate n c⟩

/-! ### A small regular-expression language with derivative matching

Each Python `re` pattern used by the chunker is transliterated into a term
of this language; `reSearch` models `re.search` (match anywhere) and
`reFullMatch` models `re.match` of a `^...$`-anchored pattern. -/

inductive RE where
  | emp : RE
  | eps : RE
  | cls : (Char → Bool) → RE
  | alt : RE → RE → RE
  | cat : RE → RE → RE
  | star : RE → RE

def RE.nullable : RE → Bool
  | .emp => false
  | .eps => true
  | .cls _ => false
  | .alt r s => r.nullable || s.nullable
  | .cat r s => r.nullable && s.nullable
  | .star _ => true

def RE.deriv : RE → Char → RE
  | .emp, _ => .emp
  | .eps, _ => .emp
  | .cls p, c => if p c then .eps else .emp
  | .alt r s, c => .alt (r.deriv c) (s.deriv c)
  | .cat r s, c =>
    if r.nullable then .alt (.cat (r.deriv c) s) (s.deriv c) else .cat (r.deriv c) s
  | .star r, c => .cat (r.deriv c) (.star r)

def RE.matchList : RE → List Char → Bool
  | r, [] => r.nullable
  | r, c :: cs => (r.deriv c).matchList cs

/-- `.`-like class matching any character. -/
def anyCh : RE := .cls fun _ => true

/-- `re.search`: the pattern matches some contiguous segment. -/
def reSearch (r : RE) (s : String) : Bool :=
  RE.matchList (.cat (.star anyCh) (.cat r (.star anyCh))) s.data

/-- `re.match` of a fully anchored (`^...$`) pattern. -/
def reFullMatch (r : RE) (s : String) : Bool := RE.matchList r s.data

/-- Literal character. -/
def chrRE (c : Char) : RE := .cls fun x => x == c

/-- Literal character under `re.IGNORECASE` (ASCII folding). -/
def ichrRE (c : Char) : RE := .cls fun x => x.toLower == c.toLower

/-- Literal string. -/
def strRE (s : String) : RE := s.data.foldr (fun c r => .cat (chrRE c) r) .eps

/-- Literal string under `re.IGNORECASE`. -/
def istrRE (s : String) : RE := s.data.foldr (fun c r => .cat (ichrRE c) r) .eps

/-- Sequencing of a pattern list. -/
def catL (rs : List RE) : RE := rs.foldr .cat .eps

/-- Alternation of a pattern list. -/
def altL (rs : List RE) : RE := rs.foldr .alt .emp

/-- `\s`. -/
def wsRE : RE := .cls Char.isWhitespace

/-- `\d`. -/
def digitRE : RE := .cls Char.isDigit

/-- `r+`. -/
def plusRE (r : RE) : RE := .cat r (.star r)

/-- `r?`. -/
def optRE (r : RE) : RE := .alt .eps r

/-- `[a-z]`. -/
def lowAZ : RE := .cls Char.isLower

/-- `[a-z\s]`. -/
def lowWs : RE := .cls fun c => c.isLower || c.isWhitespace

/-! ### Data model of `spatial_invoice_chunker.py`

Bounding boxes are Python lists `[x0, y0, x1, y1]` of floats, modelled as a
four-field rational record.  Dictionary fields read through `.get` with a
default become `Option` fields, with the default applied at the access
site, exactly as in the source. -/

structure Bbox where
  x0 : ℚ
  y0 : ℚ
  x1 : ℚ
  y1 : ℚ
deriving DecidableEq

/-- The `[0,0,0,0]` default bbox. -/
def bbox0 : Bbox := ⟨0, 0, 0, 0⟩

/-- One extracted PDF text element (`element.get('text', '')`,
`element.get('bbox', [0,0,0,0])`, `element.get('font_info', {}).get('size', 10)`). -/
structure Element where
  text : String := ""
  bbox : Option Bbox := none
  font_size : Option ℚ := none
deriving DecidableEq

/-- A page: `page.get('elements', [])`. -/
structure Page where
  elements : List Element := []
deriving DecidableEq

/-- A Camelot table: `table['data']`, `table.get('bbox', [0,0,0,0])`,
`table.get('page', 1)`.  A missing `data` key and an empty row list are
both falsy in the source, so both are modelled by `[]`. -/
structure Table where
  data : List (List String) := []
  bbox : Option Bbox := none
  page : Option Nat := none
deriving DecidableEq

/-- The `InvoiceChunk` dataclass. -/
structure InvoiceChunk where
  content : String
  chunk_type : String
  elements : List Element
  bbox : Bbox
  page_number : Nat
  confidence : ℚ
deriving DecidableEq

/-- `self.chunk_types`, which is also the key insertion order of the
`groups` dictionary in `_adaptive_spatial_grouping`. -/
def chunk_types : List String := ["header", "addresses", "line_items", "totals", "footer"]

/-! ### `self.content_patterns`: the ordered category → regex table -/

/-- The date-separator class: a slash or a dash. -/
def dateSep : RE := .cls fun c => c == '/' || c == '-'

/-- `\d{1,2}`. -/
def digit12 : RE := catL [digitRE, optRE digitRE]

/-- `\d{2,4}`. -/
def digit24 : RE := catL [digitRE, digitRE, optRE digitRE, optRE digitRE]

/-- The `'header'` pattern list. -/
def headerPats : List RE :=
  [ catL [strRE "invoice", .star wsRE, optRE (chrRE '#'), .star wsRE, plusRE digitRE],
    catL [strRE "bill", .star wsRE, optRE (chrRE '#'), .star wsRE, plusRE digitRE],
    catL [strRE "date", .star wsRE, optRE (chrRE ':'), .star wsRE,
          digit12, dateSep, digit12, dateSep, digit24],
    catL [strRE "invoice", .star wsRE, strRE "date"],
    catL [strRE "due", .star wsRE, strRE "date"] ]

/-- The `'addresses'` pattern list. -/
def addressesPats : List RE :=
  [ catL [strRE "bill", .star wsRE, strRE "to", .star wsRE, optRE (chrRE ':')],
    catL [strRE "ship", .star wsRE, strRE "to", .star wsRE, optRE (chrRE ':')],
    catL [strRE "sold", .star wsRE, strRE "to", .star wsRE, optRE (chrRE ':')],
    catL [strRE "customer", .star wsRE, optRE (chrRE ':')],
    catL [plusRE digitRE, plusRE wsRE, plusRE lowWs, plusRE wsRE,
          altL [strRE "st", strRE "ave", strRE "rd", strRE "blvd", strRE "drive", strRE "lane"]],
    catL [plusRE lowWs, chrRE ',', .star wsRE, lowAZ, lowAZ, .star wsRE,
          digitRE, digitRE, digitRE, digitRE, digitRE] ]

/-- The `'line_items'` pattern list. -/
def lineItemsPats : List RE :=
  [ strRE "description",
    altL [strRE "quantity", strRE "qty"],
    altL [strRE "price", strRE "rate", strRE "amount"],
    catL [strRE "item", .star wsRE, optRE (chrRE '#')],
    strRE "product",
    strRE "service" ]

/-- The `'totals'` pattern list. -/
def totalsPats : List RE :=
  [ altL [strRE "subtotal", catL [strRE "sub", .star wsRE, strRE "total"]],
    altL [strRE "tax", strRE "vat"],
    altL [strRE "total", catL [strRE "grand", .star wsRE, strRE "total"]],
    catL [strRE "amount", .star wsRE, strRE "due"],
    strRE "balance",
    strRE "discount" ]

/-- `self.content_patterns` in dictionary insertion order. -/
def content_patterns : List (String × List RE) :=
  [("header", headerPats), ("addresses", addressesPats),
   ("line_items", lineItemsPats), ("totals", totalsPats)]

/-! ### Spatial-fallback patterns of `_classify_element_adaptively` -/

/-- `\$[\d,]+\.?\d*`. -/
def moneyDollarRE : RE :=
  catL [chrRE '$', plusRE (.cls fun c => c.isDigit || c == ','), optRE (chrRE '.'), .star digitRE]

/-- `\d+\.\d{2}|\d+\s*x\s*\d+`. -/
def midNumRE : RE :=
  .alt (catL [plusRE digitRE, chrRE '.', digitRE, digitRE])
       (catL [plusRE digitRE, .star wsRE, chrRE 'x', .star wsRE, plusRE digitRE])

/-- `\d+\s+[a-z\s]+(st|ave|rd|blvd)`. -/
def streetRE : RE :=
  catL [plusRE digitRE, plusRE wsRE, plusRE lowWs,
        altL [strRE "st", strRE "ave", strRE "rd", strRE "blvd"]]

/-! ### Stable sorting, modelling Python `sorted` -/

/-- Insert `a` after every already-placed element that may precede it;
with a total preorder `le` this yields a stable sort. -/
def stableInsert (le : α → α → Bool) (a : α) : List α → List α
  | [] => [a]
  | b :: bs => if le b a then b :: stableInsert le a bs else a :: b :: bs

/-- Python `sorted(l, key=k)` (stable): `le x y` reads "x may precede y". -/
def pySorted (le : α → α → Bool) (l : List α) : List α :=
  l.foldl (fun acc x => stableInsert le x acc) []

/-! ### `_adaptive_spatial_grouping` and `_classify_element_adaptively` -/

/-- The totals/tax keyword list of the pre-filter in
`_adaptive_spatial_grouping`. -/
def totalsKeywords : List String :=
  ["gesamt", "total", "summe", "betrag", "steuer", "mwst", "ust"]

/-- The currency-marker literal exactly as it appears (mis-encoded) in the
chunker source file. -/
def euroMark : String := "‚Ç¨"

/-- The money-amount pattern `\d+[,.]\d+\s*` followed by the currency
marker. -/
def moneyEuroRE : RE :=
  catL [plusRE digitRE, .cls (fun c => c == ',' || c == '.'), plusRE digitRE,
        .star wsRE, strRE euroMark]

/-- The totals pre-filter of `_adaptive_spatial_grouping`: keyword hit, or
money amount on the right side of the page (`bbox[0] > 400`). -/
def routesToTotals (e : Element) : Bool :=
  let text := lowerStr e.text
  if totalsKeywords.any (fun k => strContains text k) then true
  else if reSearch moneyEuroRE text && [euroMark].any (fun w => strContains text w) then
    decide (400 < (e.bbox.getD bbox0).x0)
  else false

/-- `_classify_element_adaptively`: ordered content patterns first, then
spatial/visual fallback clues.  `text` is the already-lowercased element
text, `bbox` the defaulted bbox and `font_size` the defaulted font size,
exactly as prepared by the caller. -/
def classify_element_adaptively (text : String) (bbox : Bbox) (font_size : ℚ) : String :=
  let y_position := bbox.y0
  match (content_patterns.find? (fun p => p.2.any (fun r => reSearch r text))).map Prod.fst with
  | some chunk_type => chunk_type
  | none =>
    if 700 < y_position ∧ 12 < font_size then "header"
    else if y_position < 200 ∧ reSearch moneyDollarRE text then "totals"
    else if (200 < y_position ∧ y_position < 700) ∧ reSearch midNumRE text then "line_items"
    else if 500 < y_position ∧ reSearch streetRE text then "addresses"
    else if 400 < y_position then "header" else "footer"

/-- Classification of one element as performed inside the loop of
`_adaptive_spatial_grouping` (lowercased text, defaulted bbox and font size). -/
def classifyElement (e : Element) : String :=
  classify_element_adaptively (lowerStr e.text) (e.bbox.getD bbox0) (e.font_size.getD 10)

/-- The `groups` dictionary, with one field per key of `chunk_types`. -/
structure Groups where
  header : List Element
  addresses : List Element
  line_items : List Element
  totals : List Element
  footer : List Element
deriving DecidableEq

/-- `_adaptive_spatial_grouping`: sort by `bbox[1]` descending (stable),
split off the totals pre-filter hits, then classify the rest.  The
`groups['totals']` list receives the pre-filter hits first and then any
remaining element classified `totals`, in iteration order. -/
def adaptive_spatial_grouping (elements : List Element) : Groups :=
  let sorted_elements :=
    pySorted (fun a b => decide ((b.bbox.getD bbox0).y0 ≤ (a.bbox.getD bbox0).y0)) elements
  let parts := sorted_elements.partition routesToTotals
  let totals_elements := parts.1
  let other_elements := parts.2
  { header := other_elements.filter (fun e => classifyElement e == "header")
    addresses := other_elements.filter (fun e => classifyElement e == "addresses")
    line_items := other_elements.filter (fun e => classifyElement e == "line_items")
    totals := totals_elements ++ other_elements.filter (fun e => classifyElement e == "totals")
    footer := other_elements.filter (fun e => classifyElement e == "footer") }

/-! ### `_create_chunk_from_elements` and `_create_table_chunk` -/

/-- `min` over a nonempty rational list (`[]` never occurs at call sites). -/
def listMin : List ℚ → ℚ
  | [] => 0
  | x :: xs => xs.foldl min x

/-- `max` over a nonempty rational list. -/
def listMax : List ℚ → ℚ
  | [] => 0
  | x :: xs => xs.foldl max x

/-- `_create_chunk_from_elements`.  The local `metadata` dictionary of the
source is computed and then discarded, so it is not modelled.  The constant
confidence is `0.8` (`Rat.divInt 8 10`). -/
def create_chunk_from_elements
    (elements : List Element) (chunk_type : String) (page_num : Nat) : InvoiceChunk :=
  let combined_text := joinStr "\n" (elements.map Element.text)
  let bboxes := elements.filterMap Element.bbox
  let chunk_bbox :=
    if bboxes.isEmpty then bbox0
    else ⟨listMin (bboxes.map Bbox.x0), listMin (bboxes.map Bbox.y0),
          listMax (bboxes.map Bbox.x1), listMax (bboxes.map Bbox.y1)⟩
  { content := combined_text
    chunk_type := chunk_type
    elements := elements
    bbox := chunk_bbox
    page_number := page_num
    confidence := Rat.divInt 8 10 }

/-- The optional sub-fields filled by `_parse_line_item_details`. -/
structure ParsedDetails where
  quantity : Option String := none
  unit : Option String := none
  unit_price : Option String := none
  line_total : Option String := none
  tax_rate : Option String := none
deriving DecidableEq

/-- `^\d+[,.]?\d*$` (quantity, via anchored `re.match`). -/
def qtyRE : RE :=
  catL [plusRE digitRE, optRE (.cls fun c => c == ',' || c == '.'), .star digitRE]

/-- `^(Std\.|Stk\.|St\.|St√ºck|Hours?|pcs?)\.?$` with `re.IGNORECASE`
(the third alternative is the mis-encoded `Stück` of the source file). -/
def unitRE : RE :=
  catL [altL [istrRE "std.", istrRE "stk.", istrRE "st.", istrRE "st√ºck",
              catL [istrRE "hour", optRE (ichrRE 's')],
              catL [istrRE "pc", optRE (ichrRE 's')]],
        optRE (chrRE '.')]

/-- `\d+[,.]?\d*\s*` followed by the currency marker (price sub-line). -/
def priceDetRE : RE :=
  catL [plusRE digitRE, optRE (.cls fun c => c == ',' || c == '.'), .star digitRE,
        .star wsRE, strRE euroMark]

/-- `\d+%` (tax-rate sub-line). -/
def taxRE : RE := catL [plusRE digitRE, chrRE '%']

/-- One step of the `for line in lines` loop of `_parse_line_item_details`:
the `if`/`elif` chain, mutating the `parsed` dictionary. -/
def parseDetailStep (p : ParsedDetails) (line : String) : ParsedDetails :=
  if reFullMatch qtyRE line then { p with quantity := some line }
  else if reFullMatch unitRE line then { p with unit := some line }
  else if reSearch priceDetRE line then
    (if p.unit_price = none then { p with unit_price := some line }
     else { p with line_total := some line })
  else if reSearch taxRE line then { p with tax_rate := some line }
  else p

/-- The preprocessed sub-lines:
`[line.strip() for line in details_text.split('\n') if line.strip()]`. -/
def detailLines (details_text : String) : List String :=
  ((splitLinesStr details_text).map stripStr).filter (fun l => l ≠ "")

/-- `_parse_line_item_details`. -/
def parse_line_item_details (details_text : String) : ParsedDetails :=
  (detailLines details_text).foldl parseDetailStep {}

/-- The per-row text block of `_create_table_chunk` (rows shorter than two
cells are skipped). -/
def tableRowText (i : Nat) (row : List String) : String :=
  match row with
  | r0 :: r1 :: _ =>
    let description := r0
    let details := r1
    let parsed_details := parse_line_item_details details
    "LINE ITEM " ++ toString i ++ ":\n" ++
    "  Description: " ++ description ++ "\n" ++
    "  Quantity: " ++ parsed_details.quantity.getD "N/A" ++ "\n" ++
    "  Unit: " ++ parsed_details.unit.getD "N/A" ++ "\n" ++
    "  Unit Price: " ++ parsed_details.unit_price.getD "N/A" ++ "\n" ++
    "  Tax Rate: " ++ parsed_details.tax_rate.getD "N/A" ++ "\n" ++
    "  Line Total: " ++ parsed_details.line_total.getD "N/A" ++ "\n" ++
    replicateStr 30 '-' ++ "\n"
  | _ => ""

/-- `_create_table_chunk`: constant confidence `0.9` (`Rat.divInt 9 10`). -/
def create_table_chunk (table : Table) : InvoiceChunk :=
  let table_text :=
    if table.data ≠ [] then
      "TABLE: Invoice Line Items\n" ++ replicateStr 50 '=' ++ "\n" ++
      joinStr "" ((List.enumFrom 1 table.data).map (fun ir => tableRowText ir.1 ir.2))
    else ""
  { content := table_text
    chunk_type := "line_items"
    elements := []
    bbox := table.bbox.getD bbox0
    page_number := table.page.getD 1
    confidence := Rat.divInt 9 10 }

/-! ### `chunk_invoice_spatially` and `chunk_invoice_extraction` -/

/-- The `groups.items()` iteration of `chunk_invoice_spatially`, in the
dictionary's key insertion order. -/
def groupsList (g : Groups) : List (String × List Element) :=
  [("header", g.header), ("addresses", g.addresses), ("line_items", g.line_items),
   ("totals", g.totals), ("footer", g.footer)]

/-- `chunk_invoice_spatially`: per-page adaptive groups become chunks
(nonempty groups only), then one chunk per table is appended. -/
def chunk_invoice_spatially (pages : List Page) (tables : List Table) : List InvoiceChunk :=
  (pages.enum.flatMap fun pp =>
    let adaptive_groups := adaptive_spatial_grouping pp.2.elements
    (groupsList adaptive_groups).filterMap fun g =>
      if g.2 ≠ [] then some (create_chunk_from_elements g.2 g.1 (pp.1 + 1)) else none)
  ++ tables.map create_table_chunk

/-- `extraction_result.get('text_extraction', {}).get('pages', [])` and
`.get('table_extraction', {}).get('tables', [])`. -/
structure ExtractionResult where
  pages : List Page := []
  tables : List Table := []
deriving DecidableEq

/-- `chunk_invoice_extraction`. -/
def chunk_invoice_extraction (extraction_result : ExtractionResult) : List InvoiceChunk :=
  chunk_invoice_spatially extraction_result.pages extraction_result.tables

/-! ### `_should_merge_chunks`, `_merge_two_chunks`, `_merge_related_chunks` -/

/-- `_should_merge_chunks`. -/
def should_merge_chunks (chunk1 chunk2 : InvoiceChunk) : Bool :=
  if chunk1.chunk_type == "line_items_header" && chunk2.chunk_type == "table_data" then true
  else if chunk1.page_number == chunk2.page_number
          && decide (|chunk1.bbox.y1 - chunk2.bbox.y0| < 30) then true
  else false

/-- `_merge_two_chunks`. -/
def merge_two_chunks (chunk1 chunk2 : InvoiceChunk) : InvoiceChunk :=
  let chunk_type :=
    if chunk2.confidence < chunk1.confidence then chunk1.chunk_type else chunk2.chunk_type
  let chunk_type :=
    if chunk1.chunk_type == "line_items_header" && chunk2.chunk_type == "table_data" then
      "line_items"
    else chunk_type
  { content := chunk1.content ++ "\n" ++ chunk2.content
    chunk_type := chunk_type
    elements := chunk1.elements ++ chunk2.elements
    bbox := ⟨min chunk1.bbox.x0 chunk2.bbox.x0, min chunk1.bbox.y0 chunk2.bbox.y0,
             max chunk1.bbox.x1 chunk2.bbox.x1, max chunk1.bbox.y1 chunk2.bbox.y1⟩
    page_number := chunk1.page_number
    confidence := max chunk1.confidence chunk2.confidence }

/-- `_merge_related_chunks`: single forward pass; a merged pair consumes
two positions, otherwise one chunk is kept and the scan advances by one. -/
def merge_related_chunks : List InvoiceChunk → List InvoiceChunk
  | [] => []
  | [c] => [c]
  | c1 :: c2 :: rest =>
    if should_merge_chunks c1 c2 then
      merge_two_chunks c1 c2 :: merge_related_chunks rest
    else
      c1 :: merge_related_chunks (c2 :: rest)

/-! ### `get_chunk_summary` -/

/-- `chunk_types[t] = chunk_types.get(t, 0) + 1` on an insertion-ordered
dictionary modelled as an association list. -/
def bumpCount (m : List (String × Nat)) (k : String) : List (String × Nat) :=
  if m.any (fun kv => kv.1 == k) then
    m.map (fun kv => if kv.1 == k then (kv.1, kv.2 + 1) else kv)
  else m ++ [(k, 1)]

/-- The summary dictionary returned by `get_chunk_summary`
(`chunks_by_confidence` flattened into the three bucket fields). -/
structure ChunkSummary where
  total_chunks : Nat
  chunk_types : List (String × Nat)
  average_chunk_size : ℚ
  high : Nat
  medium : Nat
  low : Nat
deriving DecidableEq

/-- `get_chunk_summary`. -/
def get_chunk_summary (chunks : List InvoiceChunk) : ChunkSummary :=
  let chunk_type_counts := chunks.foldl (fun m c => bumpCount m c.chunk_type) []
  let total_content_length : Nat := chunks.foldl (fun n c => n + c.content.data.length) 0
  { total_chunks := chunks.length
    chunk_types := chunk_type_counts
    average_chunk_size :=
      if chunks ≠ [] then (total_content_length : ℚ) / (chunks.length : ℚ) else 0
    high := chunks.countP (fun c => decide (Rat.divInt 8 10 ≤ c.confidence))
    medium := chunks.countP
      (fun c => decide (Rat.divInt 5 10 ≤ c.confidence) && decide (c.confidence < Rat.divInt 8 10))
    low := chunks.countP (fun c => decide (c.confidence < Rat.divInt 5 10)) }

/-! ### Data model of `normalizer.py`

The normalizer accesses `el["text"]`, `el["bbox"]`, `el["page"]` directly
(no defaults), so its elements are total records. -/

/-- A text element as consumed by the normalizer. -/
structure NElement where
  text : String
  bbox : Bbox
  page : Nat
deriving DecidableEq

/-- A page of normalizer elements (`page["elements"]`). -/
structure NPage where
  elements : List NElement
deriving DecidableEq

/-- One entry of the position-name list.  Method 1 sets only `name` and
`source`; method 2 additionally records `bbox` and `page`. -/
structure PositionName where
  name : String
  source : String
  bbox : Option Bbox := none
  page : Option Nat := none
deriving DecidableEq

/-! ### `extract_position_names` -/

/-- The description-column keywords of method 1. -/
def descColKeywords : List String :=
  ["beschreibung", "description", "artikel", "item", "position"]

/-- Method 1 of `extract_position_names`: take the description column (the
first header containing a keyword) from every data row, rejecting stripped
values that are empty or contain a currency, percent or comma character. -/
def positionNamesFromTable (table_rows : List (List String)) : List PositionName :=
  if table_rows ≠ [] then
    let header_row := table_rows.headD []
    let desc_col_idx :=
      header_row.findIdx? (fun header =>
        descColKeywords.any (fun k => strContains (lowerStr header) k))
    table_rows.tail.filterMap fun row =>
      match desc_col_idx with
      | some i =>
        if i < row.length then
          let desc := stripStr (row.getD i "")
          if desc ≠ "" ∧ ¬ (["€", "%", ","].any fun ch => strContains desc ch) then
            some { name := desc, source := "table_description_column" }
          else none
        else none
      | none => none
  else []

/-- Python `text.replace(',', '').replace('.', '').isdigit()`. -/
def looksNumeric (s : String) : Bool := pyIsDigit (removeCh '.' (removeCh ',' s))

/-- Method 2 of `extract_position_names`: scan each page's elements sorted
top-to-bottom; keep multi-word, not-too-short, not-all-uppercase texts that
are followed within the next three elements by something numeric-looking. -/
def positionNamesFromContent (pages : List NPage) : List PositionName :=
  pages.flatMap fun page =>
    let elements := pySorted (fun a b => decide (a.bbox.y0 ≤ b.bbox.y0)) page.elements
    elements.enum.filterMap fun ie =>
      let el := ie.2
      let text := stripStr el.text
      if text = "" ∨ (["€", "%"].any fun ch => strContains text ch) ∨ looksNumeric text then
        none
      else
        let next_elements := (elements.drop (ie.1 + 1)).take 3
        let has_numeric_following := next_elements.any fun next_el =>
          (["€", "%", ","].any fun ch => strContains next_el.text ch)
          || looksNumeric next_el.text
        let is_likely_position :=
          2 ≤ (splitWsStr text).length ∧ 5 < text.data.length ∧
          ¬ pyIsUpper text ∧ has_numeric_following = true
        if is_likely_position then
          some { name := text, source := "content_analysis",
                 bbox := some el.bbox, page := some el.page }
        else none

/-- The merged candidate list before deduplication (method 1 then method 2,
exactly the accumulation order of the source). -/
def raw_position_names (pages : List NPage) (table_rows : List (List String)) :
    List PositionName :=
  positionNamesFromTable table_rows ++ positionNamesFromContent pages

/-- The `seen`-set deduplication loop: keep the first entry for each name. -/
def dedupByName (seen : List String) : List PositionName → List PositionName
  | [] => []
  | pos :: rest =>
    if seen.elem pos.name then dedupByName seen rest
    else pos :: dedupByName (pos.name :: seen) rest

/-- `extract_position_names`. -/
def extract_position_names (pages : List NPage) (table_rows : List (List String)) :
    List PositionName :=
  dedupByName [] (raw_position_names pages table_rows)

/-! ### `reconstruct_table_structure` -/

/-- One structured item row. `table_data` is the header→cell dictionary in
insertion order. -/
structure TableItem where
  position_name : Option String
  table_data : List (String × String)
  raw_row : List String
deriving DecidableEq

/-- The `table_format` sub-dictionary. -/
structure TableFormatInfo where
  type : String
  columns : Nat
  item_count : Nat
  has_summary : Bool
deriving DecidableEq

/-- The reconstructed table structure. -/
structure TableStructure where
  headers : List String
  items : List TableItem
  summary : List (List String)
  table_format : TableFormatInfo
deriving DecidableEq

/-- The summary-row keyword family of `reconstruct_table_structure`. -/
def summaryKeywords : List String :=
  ["summe", "steuer", "tax", "total", "gesamt", "zwischensumme", "umsatzsteuer"]

/-- Is a data row a summary row (joined lowercase text contains a summary
keyword)? -/
def isSummaryRow (row : List String) : Bool :=
  let row_text := lowerStr (joinStr " " row)
  summaryKeywords.any (fun k => strContains row_text k)

/-- The filtered name list used for positional matching: note that the
source filters only on the single keyword `'summe'`. -/
def filteredPosNames (position_names : List PositionName) : List String :=
  (position_names.filter fun p => ¬ strContains (lowerStr p.name) "summe" = true).map
    PositionName.name

/-- `reconstruct_table_structure`. -/
def reconstruct_table_structure (table_rows : List (List String))
    (position_names : List PositionName) : Option TableStructure :=
  match table_rows with
  | [] => none
  | headers :: data_rows =>
    let item_rows := data_rows.filter (fun r => !isSummaryRow r)
    let summary_rows := data_rows.filter isSummaryRow
    let matched_items := item_rows.enum.map fun ir =>
      let i := ir.1
      let item_row := ir.2
      let position_name :=
        if i < position_names.length then
          let pos_names := filteredPosNames position_names
          if i < pos_names.length then pos_names[i]? else none
        else none
      let item_data := headers.enum.filterMap fun jh =>
        if jh.1 < item_row.length then some (jh.2, item_row.getD jh.1 "") else none
      TableItem.mk position_name item_data item_row
    some { headers := headers
           items := matched_items
           summary := summary_rows
           table_format :=
             { type := "invoice_table"
               columns := headers.length
               item_count := matched_items.length
               has_summary := decide (0 < summary_rows.length) } }

/-! ### Concrete inputs used by witnesses and counterexamples -/

/-- An element whose text holds a totals keyword. -/
def exElemTotal : Element := ⟨"total", some ⟨0, 10, 5, 20⟩, none⟩

/-- A page carrying only `exElemTotal`. -/
def exPageTotals : Page := ⟨[exElemTotal]⟩

/-- A table with no data, positioned just below `exElemTotal`. -/
def exTableNear : Table := { data := [], bbox := some ⟨0, 30, 10, 40⟩, page := some 1 }

/-- The chunk built from `exPageTotals`. -/
def exChunkTotals : InvoiceChunk :=
  ⟨"total", "totals", [exElemTotal], ⟨0, 10, 5, 20⟩, 1, Rat.divInt 8 10⟩

/-- The chunk built from `exTableNear`. -/
def exChunkTable : InvoiceChunk := ⟨"", "line_items", [], ⟨0, 30, 10, 40⟩, 1, Rat.divInt 9 10⟩

/-- An element matching no content pattern and no spatial heuristic. -/
def exElemPlain : Element := ⟨"zzz", some bbox0, none⟩

/-! ### Branch predicates of the `_parse_line_item_details` chain

`lineIs*` names the branch of the `if`/`elif` chain a sub-line falls into:
a sub-line reaches a later test only when every earlier test failed. -/

/-- The sub-line is consumed by the quantity branch. -/
def lineIsQty (line : String) : Bool := reFullMatch qtyRE line

/-- The sub-line is consumed by the unit branch. -/
def lineIsUnit (line : String) : Bool := !reFullMatch qtyRE line && reFullMatch unitRE line

/-- The sub-line is consumed by the currency (price) branch. -/
def lineIsPrice (line : String) : Bool :=
  !reFullMatch qtyRE line && !reFullMatch unitRE line && reSearch priceDetRE line

/-- The sub-line is consumed by the tax-rate branch. -/
def lineIsTax (line : String) : Bool :=
  !reFullMatch qtyRE line && !reFullMatch unitRE line && !reSearch priceDetRE line
    && reSearch taxRE line

/-- Modelled from the spec: the position-name list filtered by the whole
multilingual summary-keyword family, as claim C5 describes it (the source
filters by the single keyword `'summe'` instead). -/
def specFamilyFilteredNames (position_names : List PositionName) : List String :=
  (position_names.filter fun p =>
    ¬ (summaryKeywords.any fun k => strContains (lowerStr p.name) k) = true).map
    PositionName.name

end Pdf

namespace Pdf

/-! ## Helper lemmas -/

/-- `_merge_related_chunks` never lengthens its input: each loop step
appends one chunk while consuming one or two. -/
theorem merge_related_length_le :
    ∀ chunks : List InvoiceChunk, (merge_related_chunks chunks).length ≤ chunks.length
  | [] => by simp [merge_related_chunks]
  | [c] => by simp [merge_related_chunks]
  | c1 :: c2 :: rest => by
    by_cases h : should_merge_chunks c1 c2 = true
    · have ih := merge_related_length_le rest
      simp only [merge_related_chunks, if_pos h, List.length_cons]
      omega
    · have ih := merge_related_length_le (c2 :: rest)
      simp only [merge_related_chunks, if_neg h, List.length_cons] at ih ⊢
      omega

/-- When no two consecutive chunks satisfy the merge predicate, the merge
pass is the identity. -/
theorem merge_related_eq_self :
    ∀ chunks : List InvoiceChunk,
      List.Chain' (fun a b => should_merge_chunks a b = false) chunks →
      merge_related_chunks chunks = chunks
  | [], _ => by simp [merge_related_chunks]
  | [c], _ => by simp [merge_related_chunks]
  | c1 :: c2 :: rest, h => by
    have h12 : should_merge_chunks c1 c2 = false := (List.chain'_cons.mp h).1
    have htl : List.Chain' (fun a b => should_merge_chunks a b = false) (c2 :: rest) :=
      (List.chain'_cons.mp h).2
    simp only [merge_related_chunks, h12, Bool.false_eq_true, if_false]
    exact congrArg (c1 :: ·) (merge_related_eq_self (c2 :: rest) htl)

/-- The rational constants of the summary thresholds, in field notation. -/
theorem divInt_5_lt_8 : (Rat.divInt 5 10 : ℚ) < Rat.divInt 8 10 := by
  rw [Rat.divInt_eq_div, Rat.divInt_eq_div]; norm_num

/-- The three confidence buckets of `get_chunk_summary` partition any chunk
list. -/
theorem confidence_buckets (chunks : List InvoiceChunk) :
    chunks.countP (fun c => decide (Rat.divInt 8 10 ≤ c.confidence))
      + chunks.countP
          (fun c => decide (Rat.divInt 5 10 ≤ c.confidence) && decide (c.confidence < Rat.divInt 8 10))
      + chunks.countP (fun c => decide (c.confidence < Rat.divInt 5 10))
      = chunks.length := by
  induction chunks with
  | nil => simp
  | cons c t ih =>
    simp only [List.countP_cons, List.length_cons]
    by_cases h1 : Rat.divInt 8 10 ≤ c.confidence
    · have h2 : ¬ (c.confidence < Rat.divInt 8 10) := not_lt.mpr h1
      have h3 : ¬ (c.confidence < Rat.divInt 5 10) :=
        not_lt.mpr (le_trans (le_of_lt divInt_5_lt_8) h1)
      simp [h1, h2, h3]
      omega
    · by_cases h2 : Rat.divInt 5 10 ≤ c.confidence
      · have hlt : c.confidence < Rat.divInt 8 10 := not_le.mp h1
        have h3 : ¬ (c.confidence < Rat.divInt 5 10) := not_lt.mpr h2
        simp [h1, h2, hlt, h3]
        omega
      · have h3 : c.confidence < Rat.divInt 5 10 := not_le.mp h2
        simp [h1, h2, h3]
        omega

/-- Membership in `stableInsert`. -/
theorem mem_stableInsert (le : α → α → Bool) (a x : α) :
    ∀ l : List α, (x ∈ stableInsert le a l ↔ x = a ∨ x ∈ l)
  | [] => by simp [stableInsert]
  | b :: bs => by
    by_cases h : le b a = true
    · simp only [stableInsert, if_pos h, List.mem_cons, mem_stableInsert le a x bs]
      tauto
    · simp only [stableInsert, if_neg h, List.mem_cons]

/-- Folding `stableInsert` over a list preserves membership. -/
theorem mem_pySorted_aux (le : α → α → Bool) (x : α) :
    ∀ (l acc : List α),
      (x ∈ l.foldl (fun acc y => stableInsert le y acc) acc ↔ x ∈ acc ∨ x ∈ l)
  | [], acc => by simp
  | y :: ys, acc => by
    simp only [List.foldl_cons, mem_pySorted_aux le x ys, mem_stableInsert, List.mem_cons]
    tauto

/-- `pySorted` is a permutation-membership-wise copy of its input. -/
theorem mem_pySorted (le : α → α → Bool) (x : α) (l : List α) :
    x ∈ pySorted le l ↔ x ∈ l := by
  simpa [pySorted] using mem_pySorted_aux le x l []

/-! ## Claims -/

/-- C8: for every chunk sequence, the Chunk Merger pass
(`_merge_related_chunks`) returns a sequence whose length is at most the
length of its input sequence. -/
theorem c8_merge_monotone (chunks : List InvoiceChunk) :
    (merge_related_chunks chunks).length ≤ chunks.length :=
  merge_related_length_le chunks

/-- C9: on an empty fragment list and empty table list the engine returns
an empty chunk sequence, and `reconstruct_table_structure` applied to an
empty row list yields `None`, for every position-name list. -/
theorem c9_empty_inputs :
    chunk_invoice_spatially [] [] = [] ∧
      ∀ position_names : List PositionName,
        reconstruct_table_structure [] position_names = none :=
  ⟨rfl, fun _ => rfl⟩

/-- C10: `get_chunk_summary` is total over any chunk list: on the empty
list it reports `total_chunks = 0` and `average_chunk_size = 0`, and on
every list the three confidence buckets (high `≥ 0.8`, medium `0.5 ≤ c <
0.8`, low `< 0.5`) partition the chunks, so their counts sum to
`total_chunks`. -/
theorem c10_summary_total :
    (get_chunk_summary []).total_chunks = 0 ∧
      (get_chunk_summary []).average_chunk_size = 0 ∧
      ∀ chunks : List InvoiceChunk,
        (get_chunk_summary chunks).high + (get_chunk_summary chunks).medium
          + (get_chunk_summary chunks).low = (get_chunk_summary chunks).total_chunks := by
  refine ⟨rfl, rfl, fun chunks => ?_⟩
  simpa [get_chunk_summary] using confidence_buckets chunks

/-- C2 counterexample: the fragment `"zzz"` matches no content pattern, so
its label (`"footer"`) comes from the spatial fallback, yet the chunk built
for it has confidence `0.8`, not `≤ 0.5` as the claim requires. -/
theorem c2_counterexample :
    (content_patterns.find?
        (fun p => p.2.any (fun r => reSearch r (lowerStr exElemPlain.text)))).isNone = true
    ∧ (chunk_invoice_spatially [⟨[exElemPlain]⟩] []).map
        (fun c => (c.chunk_type, c.confidence)) = [("footer", Rat.divInt 8 10)]
    ∧ ¬ ((Rat.divInt 8 10 : ℚ) ≤ Rat.divInt 5 10) :=
  ⟨by decide, by decide, by decide⟩

/-- C2 (amended): every fragment-group chunk built by
`_create_chunk_from_elements` has confidence exactly `0.8`, regardless of
whether its label came from a content pattern or from the spatial fallback,
and every table-derived chunk has confidence exactly `0.9`; confidence is a
constant per builder path, not a reflection of how the label was derived. -/
theorem c2_confidence_constant :
    (∀ (elements : List Element) (chunk_type : String) (page_num : Nat),
        (create_chunk_from_elements elements chunk_type page_num).confidence
          = Rat.divInt 8 10)
    ∧ ∀ table : Table, (create_table_chunk table).confidence = Rat.divInt 9 10 :=
  ⟨fun _ _ _ => rfl, fun _ => rfl⟩

/-- C3: every fragment whose lowercase text contains one of the totals/tax
keywords (`gesamt`, `total`, `summe`, `betrag`, `steuer`, `mwst`, `ust`) is
routed to the totals group by the pre-filter of
`_adaptive_spatial_grouping`, and is never placed in the line-items group,
whatever other patterns its text matches. -/
theorem c3_totals_prefilter (elements : List Element) (e : Element)
    (hmem : e ∈ elements)
    (hkw : totalsKeywords.any (fun k => strContains (lowerStr e.text) k) = true) :
    e ∈ (adaptive_spatial_grouping elements).totals
      ∧ e ∉ (adaptive_spatial_grouping elements).line_items := by
  have hroute : routesToTotals e = true := by
    simp only [routesToTotals]
    simp [hkw]
  have hsorted :
      e ∈ pySorted (fun a b => decide ((b.bbox.getD bbox0).y0 ≤ (a.bbox.getD bbox0).y0))
          elements :=
    (mem_pySorted _ e elements).mpr hmem
  constructor
  · simp only [adaptive_spatial_grouping, List.partition_eq_filter_filter, List.mem_append]
    exact Or.inl (List.mem_filter.mpr ⟨hsorted, hroute⟩)
  · simp only [adaptive_spatial_grouping, List.partition_eq_filter_filter]
    intro hin
    have hother := (List.mem_filter.mp hin).1
    have hnot := (List.mem_filter.mp hother).2
    simp only [Function.comp, hroute, Bool.not_true] at hnot
    exact absurd hnot (by simp)

/-- C3 witness: the fragment `"total"` lands in the totals group and not in
the line-items group. -/
theorem c3_witness :
    exElemTotal ∈ (adaptive_spatial_grouping [exElemTotal]).totals
      ∧ exElemTotal ∉ (adaptive_spatial_grouping [exElemTotal]).line_items :=
  c3_totals_prefilter [exElemTotal] exElemTotal (by decide) (by decide)

/-- C1 counterexample: with one totals fragment and one adjacent table the
builder emits two chunks that satisfy the merge predicate, yet
`chunk_invoice_spatially` returns them unmerged, so the output is not
`_merge_related_chunks` of the built chunks. -/
theorem c1_counterexample :
    chunk_invoice_spatially [exPageTotals] [exTableNear]
      ≠ merge_related_chunks (chunk_invoice_spatially [exPageTotals] [exTableNear]) := by
  have hout : chunk_invoice_spatially [exPageTotals] [exTableNear]
      = [exChunkTotals, exChunkTable] := by decide
  have hsm : should_merge_chunks exChunkTotals exChunkTable = true := by
    simp [should_merge_chunks, exChunkTotals, exChunkTable]
    norm_num
  rw [hout]
  intro h
  have hlen := congrArg List.length h
  simp [merge_related_chunks, hsm] at hlen

/-- C1 (amended): `chunk_invoice_spatially` returns the built chunks with
no merger pass applied, so its output equals `_merge_related_chunks` of the
built chunks exactly when the merge pass is the identity on them, i.e. when
no two consecutive built chunks satisfy the merge predicate. -/
theorem c1_no_merge_pass (pages : List Page) (tables : List Table)
    (h : List.Chain' (fun a b => should_merge_chunks a b = false)
          (chunk_invoice_spatially pages tables)) :
    merge_related_chunks (chunk_invoice_spatially pages tables)
      = chunk_invoice_spatially pages tables :=
  merge_related_eq_self _ h

/-- C1 witness: a single-chunk output is fixed by the merge pass. -/
theorem c1_witness :
    merge_related_chunks (chunk_invoice_spatially [exPageTotals] [])
      = chunk_invoice_spatially [exPageTotals] [] :=
  c1_no_merge_pass [exPageTotals] [] (by
    have h : chunk_invoice_spatially [exPageTotals] [] = [exChunkTotals] := by decide
    rw [h]
    simp)

/-- C6: the reconstructed table's item list is built from the data rows
(everything after the header row) by filtering and mapping, so its length
never exceeds the data-row count. -/
theorem c6_table_item_bound (rows : List (List String)) (pns : List PositionName)
    (ts : TableStructure) (h : reconstruct_table_structure rows pns = some ts) :
    ts.items.length ≤ rows.length - 1 := by
  cases rows with
  | nil => simp [reconstruct_table_structure] at h
  | cons headers data_rows =>
    simp only [reconstruct_table_structure, Option.some.injEq] at h
    subst h
    simp only [List.length_map, List.enum_length, List.length_cons, Nat.add_sub_cancel]
    exact List.length_filter_le _ _

/-! ### The sub-line parser: per-field step and fold lemmas -/

/-- `(some a).or b = some a`, in applied form. -/
theorem or_some_or (a : Option α) (b : α) (c : Option α) :
    (a.or (some b)).or c = a.or (some b) := by cases a <;> rfl

/-- `getLast?` of a cons, expressed through `Option.or`. -/
theorem getLast?_cons_or : ∀ (t : List α) (a : α), (a :: t).getLast? = (t.getLast?).or (some a)
  | [], a => by simp
  | b :: t', a => by
    rw [List.getLast?_cons_cons, getLast?_cons_or t' b]
    cases t'.getLast? <;> rfl

/-- Effect of one parser step on the quantity field. -/
theorem step_quantity (p : ParsedDetails) (l : String) :
    (parseDetailStep p l).quantity = if lineIsQty l then some l else p.quantity := by
  cases hup : p.unit_price <;> cases hb1 : reFullMatch qtyRE l <;>
    cases hb2 : reFullMatch unitRE l <;> cases hb3 : reSearch priceDetRE l <;>
      cases hb4 : reSearch taxRE l <;>
        simp [parseDetailStep, lineIsQty, hup, hb1, hb2, hb3, hb4]

/-- Effect of one parser step on the unit field. -/
theorem step_unit (p : ParsedDetails) (l : String) :
    (parseDetailStep p l).unit = if lineIsUnit l then some l else p.unit := by
  cases hup : p.unit_price <;> cases hb1 : reFullMatch qtyRE l <;>
    cases hb2 : reFullMatch unitRE l <;> cases hb3 : reSearch priceDetRE l <;>
      cases hb4 : reSearch taxRE l <;>
        simp [parseDetailStep, lineIsUnit, hup, hb1, hb2, hb3, hb4]

/-- Effect of one parser step on the tax-rate field. -/
theorem step_tax (p : ParsedDetails) (l : String) :
    (parseDetailStep p l).tax_rate = if lineIsTax l then some l else p.tax_rate := by
  cases hup : p.unit_price <;> cases hb1 : reFullMatch qtyRE l <;>
    cases hb2 : reFullMatch unitRE l <;> cases hb3 : reSearch priceDetRE l <;>
      cases hb4 : reSearch taxRE l <;>
        simp [parseDetailStep, lineIsTax, hup, hb1, hb2, hb3, hb4]

/-- Effect of one parser step on the unit-price field. -/
theorem step_unit_price (p : ParsedDetails) (l : String) :
    (parseDetailStep p l).unit_price =
      if lineIsPrice l && p.unit_price.isNone then some l else p.unit_price := by
  cases hup : p.unit_price <;> cases hb1 : reFullMatch qtyRE l <;>
    cases hb2 : reFullMatch unitRE l <;> cases hb3 : reSearch priceDetRE l <;>
      cases hb4 : reSearch taxRE l <;>
        simp [parseDetailStep, lineIsPrice, hup, hb1, hb2, hb3, hb4]

/-- Effect of one parser step on the line-total field. -/
theorem step_line_total (p : ParsedDetails) (l : String) :
    (parseDetailStep p l).line_total =
      if lineIsPrice l && !p.unit_price.isNone then some l else p.line_total := by
  cases hup : p.unit_price <;> cases hb1 : reFullMatch qtyRE l <;>
    cases hb2 : reFullMatch unitRE l <;> cases hb3 : reSearch priceDetRE l <;>
      cases hb4 : reSearch taxRE l <;>
        simp [parseDetailStep, lineIsPrice, hup, hb1, hb2, hb3, hb4]

/-- The quantity field after the fold holds the last quantity-branch line. -/
theorem fold_quantity : ∀ (lines : List String) (p : ParsedDetails),
    (lines.foldl parseDetailStep p).quantity
      = ((lines.filter lineIsQty).getLast?).or p.quantity
  | [], p => by simp
  | l :: ls, p => by
    rw [List.foldl_cons, fold_quantity ls, step_quantity]
    by_cases h : lineIsQty l = true
    · rw [if_pos h, List.filter_cons_of_pos h, getLast?_cons_or, or_some_or]
    · rw [if_neg h, List.filter_cons_of_neg (by simpa using h)]

/-- The unit field after the fold holds the last unit-branch line. -/
theorem fold_unit : ∀ (lines : List String) (p : ParsedDetails),
    (lines.foldl parseDetailStep p).unit = ((lines.filter lineIsUnit).getLast?).or p.unit
  | [], p => by simp
  | l :: ls, p => by
    rw [List.foldl_cons, fold_unit ls, step_unit]
    by_cases h : lineIsUnit l = true
    · rw [if_pos h, List.filter_cons_of_pos h, getLast?_cons_or, or_some_or]
    · rw [if_neg h, List.filter_cons_of_neg (by simpa using h)]

/-- The tax-rate field after the fold holds the last tax-branch line. -/
theorem fold_tax : ∀ (lines : List String) (p : ParsedDetails),
    (lines.foldl parseDetailStep p).tax_rate
      = ((lines.filter lineIsTax).getLast?).or p.tax_rate
  | [], p => by simp
  | l :: ls, p => by
    rw [List.foldl_cons, fold_tax ls, step_tax]
    by_cases h : lineIsTax l = true
    · rw [if_pos h, List.filter_cons_of_pos h, getLast?_cons_or, or_some_or]
    · rw [if_neg h, List.filter_cons_of_neg (by simpa using h)]

/-- The unit-price field after the fold holds the first price-branch line
(unless already set). -/
theorem fold_unit_price : ∀ (lines : List String) (p : ParsedDetails),
    (lines.foldl parseDetailStep p).unit_price
      = p.unit_price.or ((lines.filter lineIsPrice).head?)
  | [], p => by simp
  | l :: ls, p => by
    rw [List.foldl_cons, fold_unit_price ls, step_unit_price]
    by_cases h : lineIsPrice l = true
    · rw [List.filter_cons_of_pos h]
      cases hup : p.unit_price <;> simp [h, hup]
    · rw [List.filter_cons_of_neg (by simpa using h)]
      simp [h]

/-- The line-total field after the fold holds the last price-branch line
other than the one consumed as unit price. -/
theorem fold_line_total : ∀ (lines : List String) (p : ParsedDetails),
    (lines.foldl parseDetailStep p).line_total
      = if p.unit_price.isSome then ((lines.filter lineIsPrice).getLast?).or p.line_total
        else (((lines.filter lineIsPrice).drop 1).getLast?).or p.line_total
  | [], p => by cases p.unit_price <;> simp
  | l :: ls, p => by
    rw [List.foldl_cons, fold_line_total ls, step_unit_price, step_line_total]
    by_cases h : lineIsPrice l = true
    · rw [List.filter_cons_of_pos h]
      cases hup : p.unit_price with
      | none => simp [h, hup]
      | some u => simp [h, hup, getLast?_cons_or, or_some_or]
    · rw [List.filter_cons_of_neg (by simpa using h)]
      simp [h]

/-- C4 counterexample: in `_parse_line_item_details` the quantity field is
not first-match-wins: a second bare-numeral sub-line overwrites the value
the first sub-line assigned. -/
theorem c4_counterexample :
    (parse_line_item_details "1").quantity = some "1"
      ∧ (parse_line_item_details "1
2").quantity = some "2"
      ∧ (some "2" : Option String) ≠ some "1" :=
  ⟨by decide, by decide, by decide⟩

/-- C4 (amended): the sub-line parser assigns quantity, unit and tax rate
last-match-wins (a later matching sub-line overwrites the field), while a
numeral with a currency marker is assigned to unit price on its first
occurrence and to line total on its second and every later occurrence
within the same cell (so line total ends up holding the last one). -/
theorem c4_parse_details_fields (details_text : String) :
    parse_line_item_details details_text =
      { quantity := ((detailLines details_text).filter lineIsQty).getLast?
        unit := ((detailLines details_text).filter lineIsUnit).getLast?
        unit_price := ((detailLines details_text).filter lineIsPrice).head?
        line_total := (((detailLines details_text).filter lineIsPrice).drop 1).getLast?
        tax_rate := ((detailLines details_text).filter lineIsTax).getLast? } := by
  have h1 : (parse_line_item_details details_text).quantity
      = ((detailLines details_text).filter lineIsQty).getLast? := by
    simpa using fold_quantity (detailLines details_text) {}
  have h2 : (parse_line_item_details details_text).unit
      = ((detailLines details_text).filter lineIsUnit).getLast? := by
    simpa using fold_unit (detailLines details_text) {}
  have h3 : (parse_line_item_details details_text).unit_price
      = ((detailLines details_text).filter lineIsPrice).head? := by
    simpa using fold_unit_price (detailLines details_text) {}
  have h4 : (parse_line_item_details details_text).line_total
      = (((detailLines details_text).filter lineIsPrice).drop 1).getLast? := by
    simpa using fold_line_total (detailLines details_text) {}
  have h5 : (parse_line_item_details details_text).tax_rate
      = ((detailLines details_text).filter lineIsTax).getLast? := by
    simpa using fold_tax (detailLines details_text) {}
  calc parse_line_item_details details_text
      = { quantity := (parse_line_item_details details_text).quantity
          unit := (parse_line_item_details details_text).unit
          unit_price := (parse_line_item_details details_text).unit_price
          line_total := (parse_line_item_details details_text).line_total
          tax_rate := (parse_line_item_details details_text).tax_rate } := rfl
    _ = _ := by rw [h1, h2, h3, h4, h5]

/-- C5 counterexample: a position name containing the summary keyword
`total` (but not `summe`) is not filtered out by the source, so the first
item row receives it, while the claim's family-filtered list is empty and
would demand `None`. -/
theorem c5_counterexample :
    (reconstruct_table_structure [["h"], ["item one"]]
        [{ name := "total fee", source := "content_analysis" }]).map
        (fun ts => ts.items.map TableItem.position_name) = some [some "total fee"]
      ∧ specFamilyFilteredNames [{ name := "total fee", source := "content_analysis" }] = [] :=
  ⟨by decide, by decide⟩

/-- C5 (amended): the i-th item row receives the i-th entry of the
position-name list after filtering out only those names whose lowercase
text contains the keyword `summe`, or `None` when that filtered list has
fewer than `i+1` entries. -/
theorem c5_position_alignment (rows : List (List String)) (pns : List PositionName)
    (ts : TableStructure) (h : reconstruct_table_structure rows pns = some ts)
    (i : Nat) (hi : i < ts.items.length) :
    ts.items[i]?.map TableItem.position_name = some ((filteredPosNames pns)[i]?) := by
  cases rows with
  | nil => simp [reconstruct_table_structure] at h
  | cons headers data_rows =>
    simp only [reconstruct_table_structure, Option.some.injEq] at h
    subst h
    have hi' : i < (data_rows.filter (fun r => !isSummaryRow r)).length := by
      simpa [List.enum_length] using hi
    rw [List.getElem?_map, List.getElem?_enum, List.getElem?_eq_getElem hi']
    by_cases hf : i < (filteredPosNames pns).length
    · have hp : i < pns.length :=
        lt_of_lt_of_le hf (by simpa [filteredPosNames] using List.length_filter_le _ pns)
      simp [hp, hf]
    · have hnone : (filteredPosNames pns)[i]? = none := List.getElem?_eq_none (not_lt.mp hf)
      by_cases hp : i < pns.length <;> simp [hp, hf, hnone]

/-- C5 witness: with one surviving name, item 0 receives it. -/
theorem c5_witness :
    (TableStructure.mk ["h"] [TableItem.mk (some "Consulting work") [("h", "r")] ["r"]] []
        (TableFormatInfo.mk "invoice_table" 1 1 false)).items[0]?.map TableItem.position_name
      = some ((filteredPosNames [{ name := "Consulting work", source := "content_analysis" }])[0]?) :=
  c5_position_alignment [["h"], ["r"]]
    [{ name := "Consulting work", source := "content_analysis" }] _ (by decide) 0 (by decide)

/-! ### Deduplication lemmas for the position-name extractor -/

/-- The deduplicated list is a sublist of the input, so insertion order is
preserved and every entry comes from the input. -/
theorem dedupByName_sublist :
    ∀ (seen : List String) (l : List PositionName), List.Sublist (dedupByName seen l) l
  | _, [] => by simp [dedupByName]
  | seen, q :: rest => by
    by_cases h : seen.elem q.name = true
    · simp only [dedupByName, if_pos h]
      exact List.Sublist.cons q (dedupByName_sublist seen rest)
    · simp only [dedupByName, if_neg h]
      exact List.Sublist.cons₂ q (dedupByName_sublist (q.name :: seen) rest)

/-- Every kept entry is the first entry of the input carrying its name. -/
theorem dedupByName_mem_find :
    ∀ (seen : List String) (l : List PositionName) (p : PositionName),
      p ∈ dedupByName seen l →
        p.name ∉ seen ∧ l.find? (fun q => q.name == p.name) = some p
  | _, [], p => by simp [dedupByName]
  | seen, q :: rest, p => by
    by_cases h : seen.elem q.name = true
    · intro hp
      simp only [dedupByName, if_pos h] at hp
      obtain ⟨hns, hfind⟩ := dedupByName_mem_find seen rest p hp
      refine ⟨hns, ?_⟩
      have hqp : (q.name == p.name) = false := by
        refine beq_eq_false_iff_ne.mpr fun he => ?_
        exact hns (by rw [← he]; exact List.elem_iff.mp h)
      simp [List.find?, hqp, hfind]
    · intro hp
      simp only [dedupByName, if_neg h, List.mem_cons] at hp
      rcases hp with rfl | hp
      · refine ⟨fun hc => h (List.elem_iff.mpr hc), ?_⟩
        simp [List.find?]
      · obtain ⟨hns, hfind⟩ := dedupByName_mem_find (q.name :: seen) rest p hp
        have hne : q.name ≠ p.name := fun he => hns (he ▸ List.mem_cons_self q.name seen)
        refine ⟨fun hc => hns (List.mem_cons_of_mem _ hc), ?_⟩
        have hqp : (q.name == p.name) = false := beq_eq_false_iff_ne.mpr hne
        simp [List.find?, hqp, hfind]

/-- The kept names are pairwise distinct and disjoint from `seen`. -/
theorem dedupByName_names_nodup :
    ∀ (seen : List String) (l : List PositionName),
      ((dedupByName seen l).map PositionName.name).Nodup
        ∧ ∀ s ∈ (dedupByName seen l).map PositionName.name, s ∉ seen
  | _, [] => by simp [dedupByName]
  | seen, q :: rest => by
    by_cases h : seen.elem q.name = true
    · simpa only [dedupByName, if_pos h] using dedupByName_names_nodup seen rest
    · obtain ⟨hnd, hdis⟩ := dedupByName_names_nodup (q.name :: seen) rest
      simp only [dedupByName, if_neg h, List.map_cons, List.nodup_cons]
      refine ⟨⟨fun hc => (hdis _ hc) (List.mem_cons_self _ _), hnd⟩, ?_⟩
      intro s hs
      rcases List.mem_cons.mp hs with rfl | hs'
      · exact fun hc => h (List.elem_iff.mpr hc)
      · exact fun hc => (hdis s hs') (List.mem_cons_of_mem _ hc)

/-- C7: the extractor's output has pairwise distinct names; it is a sublist
of the merged table-column-then-content candidate list (insertion order
preserved), and each kept entry is the first candidate carrying its name. -/
theorem c7_position_name_dedup (pages : List NPage) (table_rows : List (List String)) :
    ((extract_position_names pages table_rows).map PositionName.name).Nodup
      ∧ List.Sublist (extract_position_names pages table_rows)
          (raw_position_names pages table_rows)
      ∧ ∀ p ∈ extract_position_names pages table_rows,
          (raw_position_names pages table_rows).find? (fun q => q.name == p.name) = some p :=
  ⟨(dedupByName_names_nodup [] _).1, dedupByName_sublist [] _,
   fun p hp => (dedupByName_mem_find [] _ p hp).2⟩

/-- C7 witness: one concrete candidate is kept and is the first of its
name. -/
theorem c7_witness :
    (raw_position_names [] [["Beschreibung"], ["Consulting work"]]).find?
        (fun q => q.name ==
          ({ name := "Consulting work", source := "table_description_column" } :
            PositionName).name)
      = some { name := "Consulting work", source := "table_description_column" } :=
  (c7_position_name_dedup [] [["Beschreibung"], ["Consulting work"]]).2.2
    { name := "Consulting work", source := "table_description_column" } (by decide)

/-- C6 witness: a two-row table yields one item, which is at most the one
data row. -/
theorem c6_witness :
    (TableStructure.mk ["h"] [TableItem.mk none [("h", "r")] ["r"]] []
        (TableFormatInfo.mk "invoice_table" 1 1 false)).items.length
      ≤ ([["h"], ["r"]] : List (List String)).length - 1 :=
  c6_table_item_bound [["h"], ["r"]] [] _ (by decide)

end Pdf
